import Mathlib

/-!
Shallow embedding of the client-side data-derivation logic of the iVisit
LogBook/Stations pages (`src/pages/LogBook/LogBook.tsx`): log filtering,
pagination, statistics, station classification, station CRUD validation,
location-option building and guard-assignment selection.

JavaScript string primitives (`toLowerCase`, `trim`, `includes`) and the
truthiness operators (`||`, `??`, `!x`) are modelled by executable
char-list functions so that every definition evaluates inside the kernel.
-/

namespace IVisit

/-! ### JavaScript string and truthiness primitives -/

/-- `c.toLowerCase()` for one character (ASCII case mapping, which is all the
source's data uses). -/
def lowerChar (c : Char) : Char :=
  if 65 ≤ c.toNat ∧ c.toNat ≤ 90 then Char.ofNat (c.toNat + 32) else c

/-- `s.toLowerCase()`. -/
def jsLower (s : String) : String :=
  String.mk (s.data.map lowerChar)

/-- `s.trim()`: strip leading and trailing whitespace. -/
def jsTrim (s : String) : String :=
  String.mk (((s.data.dropWhile Char.isWhitespace).reverse.dropWhile
    Char.isWhitespace).reverse)

/-- Is `sub` a prefix of `hay`? (Char-list helper for `String.includes`.) -/
def prefChars : List Char → List Char → Bool
  | [], _ => true
  | _ :: _, [] => false
  | a :: as, b :: bs => a == b && prefChars as bs

/-- Does `hay` contain `sub` as a contiguous run? -/
def hasSub : List Char → List Char → Bool
  | [], sub => decide (sub = [])
  | c :: rest, sub => prefChars sub (c :: rest) || hasSub rest sub

/-- `s.includes(sub)`. -/
def jsIncludes (s sub : String) : Bool :=
  hasSub s.data sub.data

/-- JavaScript `x || d` on an optional string: `undefined`, `null` and the
empty string are falsy and fall through to the default. -/
def jsOr (o : Option String) (d : String) : String :=
  match o with
  | none => d
  | some s => if s = "" then d else s

/-- JavaScript `x ?? d` on an optional string: only `undefined`/`null` fall
through to the default; the empty string is kept. -/
def jsNullish (o : Option String) (d : String) : String :=
  o.getD d

/-! ### Data model (TypeScript DTO shapes: optional fields are `Option`) -/

/-- `VisitorLogDTO` from `api/Index`. -/
structure VisitorLogDTO where
  visitorLogID : Nat
  fullName : Option String := none
  idType : Option String := none
  passNo : Option String := none
  location : Option String := none
  purposeOfVisit : Option String := none
  loggedBy : Option String := none
  date : Option String := none
  time : Option String := none
deriving DecidableEq, Repr

/-- `Station` from `api/Index` (with the `active` flag of `StationWithUsers`). -/
structure Station where
  id : Nat
  name : Option String := none
  stationType : Option String := none
  active : Option Bool := none
deriving DecidableEq, Repr

/-- The two station categories of the spec. -/
inductive Category where
  | gate
  | building
deriving DecidableEq, Repr

/-- The two FontAwesome icons the pages choose between. -/
inductive Icon where
  | faDungeon
  | farBuilding
deriving DecidableEq, Repr

/-- The status dropdown of the LogBook page. -/
inductive StatusFilter where
  | all
  | active
  | inactive
deriving DecidableEq, Repr

/-! ### Station classification (spec §4.1)

No standalone classifier exists in the source; each call site inlines the
rule. -/

/-- Modelled from the spec: §4.1 `StationClassifier.classify` — stored type
`"gate"`/`"building"` (case-insensitive) wins; otherwise a name containing
`"gate"` (case-insensitive) means GATE, else BUILDING. -/
def classify (s : Station) : Category :=
  let t := jsLower (jsOr s.stationType "")
  if t = "gate" then Category.gate
  else if t = "building" then Category.building
  else if jsIncludes (jsLower (jsOr s.name "")) "gate" then Category.gate
  else Category.building

/-- `LogBook.tsx` log-row icon selection (lines 254–271): match the row's
location against the station list, then pick an icon from the matched
station's type, falling back to the name heuristic only when no station
matched. -/
def logRowIcon (stations : List Station) (location : Option String) :
    Option Icon :=
  let locationName := jsTrim (jsOr location "")
  if locationName = "" then none
  else
    let matched := stations.find? fun s =>
      jsLower (jsTrim (jsOr s.name "")) = jsLower locationName
    let stationType := jsLower (jsOr (matched.bind (·.stationType)) "")
    let looksLikeGate := jsIncludes (jsLower locationName) "gate"
    if stationType = "gate" ∨ (matched = none ∧ looksLikeGate = true) then
      some Icon.faDungeon
    else if stationType = "building" ∨ matched ≠ none then
      some Icon.farBuilding
    else if matched = none then some Icon.farBuilding
    else none

/-- `Stations.tsx` station-list icon selection (lines 715–719): gate icon
iff the stored type is `"gate"`, or the type is empty and the name contains
`"gate"`. -/
def stationListIcon (s : Station) : Icon :=
  let t := jsLower (jsOr s.stationType "")
  let looksLikeGate := jsIncludes (jsLower (jsOr s.name "")) "gate"
  if t = "gate" ∨ (t = "" ∧ looksLikeGate = true) then Icon.faDungeon
  else Icon.farBuilding

/-! ### Generic list machinery shared by several embeddings -/

/-- Keys of a JavaScript object / elements of a JavaScript `Set`, in
insertion order: keep the first occurrence of each value. -/
def firstOccurs {α : Type} [DecidableEq α] (l : List α) : List α :=
  l.foldl (fun acc x => if x ∈ acc then acc else acc ++ [x]) []

/-- `m[k] = (m[k] || 0) + 1` on a JavaScript object modelled as an
association list in property-creation order: a new key is appended, an
existing key's value is updated in place. (Enumeration via
`Object.entries` does NOT follow this order for canonical integer keys;
`entriesOrder` below applies the hoisting at the enumeration site.) -/
def countInsert (m : List (String × Nat)) (k : String) : List (String × Nat) :=
  if m.any (fun e => e.1 = k) then
    m.map (fun e => if e.1 = k then (e.1, e.2 + 1) else e)
  else m ++ [(k, 1)]

/-- Tally a key list into a count map in property-creation order, as the
two `forEach` loops of the stats computation do; `topCountKey` then reads
it back in `Object.entries` enumeration order. -/
def buildCounts (keys : List String) : List (String × Nat) :=
  keys.foldl countInsert []

/-- Insert `x` into `l` in front of the first element `y` with `le x y`
(stable insertion step). -/
def insertLe {α : Type} (le : α → α → Bool) (x : α) : List α → List α
  | [] => [x]
  | y :: ys => if le x y then x :: y :: ys else y :: insertLe le x ys

/-- Stable insertion sort by the boolean relation `le`; JavaScript
`Array.prototype.sort` with a comparator is specified as exactly a stable
sort, so any stable sort is a faithful model of it. -/
def sortLe {α : Type} (le : α → α → Bool) (l : List α) : List α :=
  l.foldr (insertLe le) []

/-- Descending-by-count comparator of `sort((a, b) => b[1] - a[1])`. -/
def sortByCountDesc (l : List (String × Nat)) : List (String × Nat) :=
  sortLe (fun a b => b.2 ≤ a.2) l

/-- Largest count appearing among a list of count-map entries. -/
def maxCountE (l : List (String × Nat)) : Nat :=
  l.foldr (fun e a => max e.2 a) 0

/-! ### LogBook: location options (C9)

`sortGateAware` lives in `utils/locationSort`, which is not part of the
provided sources; it is modelled from the spec below. -/

/-- Ordering on naturals, written out so it reduces in the kernel. -/
def cmpNat (a b : Nat) : Ordering :=
  if a < b then Ordering.lt else if a = b then Ordering.eq else Ordering.gt

/-- Lexicographic ordering on char lists by code point. -/
def cmpChars : List Char → List Char → Ordering
  | [], [] => Ordering.eq
  | [], _ :: _ => Ordering.lt
  | _ :: _, [] => Ordering.gt
  | a :: as, b :: bs =>
    match cmpNat a.toNat b.toNat with
    | Ordering.eq => cmpChars as bs
    | o => o

/-- One token of a name: an embedded number or a run of non-digits. -/
inductive NameTok where
  | num (n : Nat)
  | txt (s : String)
deriving DecidableEq, Repr

/-- Numeric value of a digit run. -/
def digitsVal (l : List Char) : Nat :=
  l.foldl (fun n c => n * 10 + (c.toNat - 48)) 0

/-- Close the run being accumulated into a token (empty run: no token). -/
def flushTok (run : List Char) (isNum : Bool) : List NameTok :=
  match run with
  | [] => []
  | r => [if isNum then NameTok.num (digitsVal r) else NameTok.txt (String.mk r)]

/-- Split characters into maximal digit / non-digit runs. -/
def tokenizeAux : List Char → List Char → Bool → List NameTok
  | [], run, isNum => flushTok run isNum
  | c :: cs, run, isNum =>
    if run = [] then tokenizeAux cs [c] c.isDigit
    else if c.isDigit = isNum then tokenizeAux cs (run ++ [c]) isNum
    else flushTok run isNum ++ tokenizeAux cs [c] c.isDigit

/-- Tokenize a name for natural (numeric-aware) comparison. -/
def tokenize (s : String) : List NameTok :=
  tokenizeAux s.data [] false

/-- Compare two tokens: numbers numerically, text lexicographically,
numbers before text. -/
def cmpTok : NameTok → NameTok → Ordering
  | NameTok.num a, NameTok.num b => cmpNat a b
  | NameTok.num _, NameTok.txt _ => Ordering.lt
  | NameTok.txt _, NameTok.num _ => Ordering.gt
  | NameTok.txt a, NameTok.txt b => cmpChars a.data b.data

/-- Lexicographic comparison of token lists. -/
def cmpToks : List NameTok → List NameTok → Ordering
  | [], [] => Ordering.eq
  | [], _ :: _ => Ordering.lt
  | _ :: _, [] => Ordering.gt
  | a :: as, b :: bs =>
    match cmpTok a b with
    | Ordering.eq => cmpToks as bs
    | o => o

/-- Modelled from the spec: §4.4 gate-aware comparator (`utils/locationSort`
is not among the provided sources) — embedded numeric tokens compare
numerically ("Gate 2" before "Gate 10"), otherwise character order;
deterministic, with a raw character-order tie-break. -/
def gateAwareCompare (a b : String) : Ordering :=
  match cmpToks (tokenize a) (tokenize b) with
  | Ordering.eq => cmpChars a.data b.data
  | o => o

/-- Modelled from the spec: §4.4 `sortGateAware` — a stable, deterministic,
numeric-aware sort of names by the gate-aware comparator. -/
def sortGateAware (l : List String) : List String :=
  sortLe (fun a b => gateAwareCompare a b ≠ Ordering.gt) l

/-- `LogBook.tsx` `locationOptions` (lines 69–77): trimmed non-blank
station names other than `"N/A"`, deduplicated in insertion order
(`Array.from(new Set(names))`), then gate-aware sorted. -/
def locationOptions (stations : List Station) : List String :=
  if stations = [] then []
  else
    let names := (stations.map fun s => jsTrim (jsOr s.name "")).filter
      fun n => n ≠ "" ∧ n ≠ "N/A"
    let unique := firstOccurs names
    sortGateAware unique

/-! ### LogBook: filtering (C4) and pagination (C5) -/

/-- The searched fields of a log row, with `?? ''` on each. -/
def searchFields (e : VisitorLogDTO) : List String :=
  [jsNullish e.fullName "", jsNullish e.idType "", jsNullish e.passNo "",
   jsNullish e.location "", jsNullish e.purposeOfVisit "",
   jsNullish e.loggedBy "", jsNullish e.date "", jsNullish e.time ""]

/-- The predicate of `LogBook.tsx` `filteredLogs` (lines 80–103), with its
early returns written as nested conditionals. -/
def keepsLog (activeLogIds : List Nat) (search : String)
    (statusFilter : StatusFilter) (locationFilter : String)
    (e : VisitorLogDTO) : Bool :=
  let term := jsLower search
  let logIsActive := activeLogIds.contains e.visitorLogID
  let location := jsLower (jsTrim (jsOr e.location ""))
  if statusFilter = StatusFilter.active ∧ logIsActive = false then false
  else if statusFilter = StatusFilter.inactive ∧ logIsActive = true then false
  else if locationFilter ≠ "all" ∧
      (location = "" ∨ location ≠ jsLower (jsTrim locationFilter)) then false
  else if term = "" then true
  else (searchFields e).any fun field => jsIncludes (jsLower field) term

/-- `LogBook.tsx` `filteredLogs`: `data.filter(...)`. -/
def filteredLogs (data : List VisitorLogDTO) (activeLogIds : List Nat)
    (search : String) (statusFilter : StatusFilter)
    (locationFilter : String) : List VisitorLogDTO :=
  data.filter (keepsLog activeLogIds search statusFilter locationFilter)

/-- `LogBook.tsx` line 107: `totalElements === 0 ? 0 :
Math.ceil(totalElements / pageSize)` (natural-number ceiling). -/
def totalPages (totalElements pageSize : Nat) : Nat :=
  if totalElements = 0 then 0 else (totalElements + pageSize - 1) / pageSize

/-- `LogBook.tsx` line 109: `totalPages === 0 ? 0 :
Math.min(page, totalPages - 1)`. -/
def currentPage (page tp : Nat) : Nat :=
  if tp = 0 then 0 else min page (tp - 1)

/-- `LogBook.tsx` line 111: `filteredLogs.slice(currentPage * pageSize,
currentPage * pageSize + pageSize)`. -/
def pagedLogs (filtered : List VisitorLogDTO) (page pageSize : Nat) :
    List VisitorLogDTO :=
  let cp := currentPage page (totalPages filtered.length pageSize)
  (filtered.drop (cp * pageSize)).take pageSize

/-- The slice of page `k`, for the partition statement. -/
def pageSlice {α : Type} (l : List α) (pageSize k : Nat) : List α :=
  (l.drop (k * pageSize)).take pageSize

/-! ### LogBook: statistics (C3, C6) -/

/-- The `LogStats` record of `LogBook.tsx`. -/
structure LogStats where
  active : Nat
  uniqueToday : Nat
  frequentBuilding : String
  highestGate : String
  uniqueWeek : Nat
  uniqueMonth : Nat
deriving DecidableEq, Repr

/-- Is a character an ASCII digit (code points 48–57)? -/
def isDigitChar (c : Char) : Bool :=
  48 ≤ c.toNat && c.toNat ≤ 57

/-- ECMAScript's canonical array-index test for a property key: non-empty,
all digits, no leading zero (except `"0"` itself), and numeric value below
`2^32 - 1`. Such keys are enumerated before all other string keys, in
ascending numeric order. -/
def isArrayIndex (s : String) : Bool :=
  match s.data with
  | [] => false
  | c :: cs =>
    (c :: cs).all isDigitChar && (!(c == '0') || cs.isEmpty) &&
      digitsVal (c :: cs) < 4294967295

/-- The enumeration order `Object.entries` applies to an object whose
properties were created in the order of the backing association list:
canonical array-index keys first, in ascending numeric order, then the
remaining keys in creation (insertion) order. -/
def entriesOrder (m : List (String × Nat)) : List (String × Nat) :=
  sortLe (fun a b => decide (digitsVal a.1.data ≤ digitsVal b.1.data))
      (m.filter fun e => isArrayIndex e.1) ++
    m.filter (fun e => !(isArrayIndex e.1))

/-- `Object.entries(counts).sort((a, b) => b[1] - a[1])[0]?.[0]`:
`Object.entries` enumerates in `entriesOrder`; the comparator sort is
stable, so ties keep that enumeration order. -/
def topCountKey (counts : List (String × Nat)) : Option String :=
  ((sortByCountDesc (entriesOrder counts)).head?).map Prod.fst

/-- The key enumeration of `entriesOrder` expressed over the raw key list:
distinct keys in first-encountered order, with canonical array-index keys
hoisted to the front in ascending numeric order. -/
def entriesKeyOrder (keys : List String) : List String :=
  sortLe (fun a b => decide (digitsVal a.data ≤ digitsVal b.data))
      ((firstOccurs keys).filter isArrayIndex) ++
    (firstOccurs keys).filter (fun k => !(isArrayIndex k))

/-- `data.filter((d) => d.date === today)` (line 119). -/
def todayLogsOf (data : List VisitorLogDTO) (today : String) :
    List VisitorLogDTO :=
  data.filter fun d => d.date == some today

/-- `x || 'N/A'` on the optional top key. -/
def jsOrOpt (o : Option String) (d : String) : String :=
  match o with
  | none => d
  | some s => if s = "" then d else s

/-- The key list of the `locationCount` loop: every today-log's location,
blank/missing defaulting to `"Unknown"`. -/
def buildingKeys (todayLogs : List VisitorLogDTO) : List String :=
  todayLogs.map fun d => jsOr d.location "Unknown"

/-- The key list of the `gateCount` loop: only logs whose lowercased
location contains `"gate"` contribute, under the key
`d.location || 'Unknown gate'`. -/
def gateKeys (todayLogs : List VisitorLogDTO) : List String :=
  todayLogs.filterMap fun d =>
    if jsIncludes (jsLower (jsOr d.location "")) "gate" then
      some (jsOr d.location "Unknown gate")
    else none

/-- `LogBook.tsx` `stats` (lines 114–154): `null` when `data` is empty,
otherwise the six aggregates over the logs with `date === today`. -/
def statsOf (data : List VisitorLogDTO) (activeLogIds : List Nat)
    (today : String) : Option LogStats :=
  if data = [] then none
  else
    let todayLogs := todayLogsOf data today
    let todayActiveLogs := todayLogs.filter fun d =>
      activeLogIds.contains d.visitorLogID
    let uniqueToday := (firstOccurs (todayLogs.map (·.fullName))).length
    let frequentBuilding := topCountKey (buildCounts (buildingKeys todayLogs))
    let highestGate := topCountKey (buildCounts (gateKeys todayLogs))
    let uniqueWeek := (firstOccurs (data.map (·.fullName))).length
    let uniqueMonth := (firstOccurs (data.map (·.fullName))).length
    some
      { active := todayActiveLogs.length
        uniqueToday := uniqueToday
        frequentBuilding := jsOrOpt frequentBuilding "N/A"
        highestGate := jsOrOpt highestGate "N/A"
        uniqueWeek := uniqueWeek
        uniqueMonth := uniqueMonth }

/-- Spec-side maximum occurrence count among the encountered keys. -/
def maxCountOf (keys : List String) : Nat :=
  (firstOccurs keys).foldr (fun k a => max (keys.count k) a) 0

/-- Spec-side pick as the original claim states it: iterate the keys in
first-encountered order and return the first one whose occurrence count is
the maximum ("highest occurrence count, ties broken by
first-encountered-in-iteration-order"). -/
def specPick (keys : List String) : Option String :=
  (firstOccurs keys).find? fun k => keys.count k == maxCountOf keys

/-- Spec-side pick as the program behaves: the first key in
`Object.entries` enumeration order (canonical array-index keys first,
ascending numerically, then first-encountered order) whose occurrence
count is the maximum. -/
def specPickJs (keys : List String) : Option String :=
  (entriesKeyOrder keys).find? fun k => keys.count k == maxCountOf keys

/-! ### Stations: tab filtering (C8) -/

/-- The `matchesType` computation of `Stations.tsx` `filteredStations`
(lines 488–501): a recognized stored type must equal the current tab;
otherwise blank-name rows match every tab, and named rows follow the
"gate" substring heuristic. -/
def stationMatchesType (currentType : Category) (s : Station) : Bool :=
  let rawType := jsLower (jsOr s.stationType "")
  let name := jsLower (jsOr s.name "")
  if rawType = "gate" ∨ rawType = "building" then
    decide (rawType = (if currentType = Category.gate then "gate"
      else "building"))
  else if name = "" then true
  else if currentType = Category.gate then jsIncludes name "gate"
  else !(jsIncludes name "gate")

/-- `Stations.tsx` `filteredStations` predicate (lines 484–510): the type
match above and the `showInactive` / `active !== false` gate. -/
def keepsStation (currentType : Category) (showInactive : Bool)
    (s : Station) : Bool :=
  if stationMatchesType currentType s = false then false
  else if showInactive = false then decide (s.active ≠ some false)
  else true

/-- `Stations.tsx` `filteredStations`: `stations.filter(...)`. -/
def filteredStations (stations : List Station) (currentType : Category)
    (showInactive : Bool) : List Station :=
  stations.filter (keepsStation currentType showInactive)

/-- Spec-side "legacy" condition of §4.3: no usable name and no recognized
type. -/
def isLegacyStation (s : Station) : Prop :=
  jsLower (jsOr s.name "") = "" ∧
    jsLower (jsOr s.stationType "") ≠ "gate" ∧
    jsLower (jsOr s.stationType "") ≠ "building"

instance (s : Station) : Decidable (isLegacyStation s) := by
  unfold isLegacyStation; infer_instance

/-! ### Stations: create / rename validation (C2, C7) -/

/-- The two validation failures of station creation. -/
inductive CreateError where
  | emptyName
  | duplicateName
deriving DecidableEq, Repr

/-- The single validation failure of station rename. -/
inductive RenameError where
  | emptyName
deriving DecidableEq, Repr

/-- The gate-prefix normalization shared by create and rename: prepend
`"Gate "` when the chosen category is gate and the trimmed name does not
contain `"gate"` case-insensitively. -/
def gateFinalName (rawName : String) (category : Category) : String :=
  if category = Category.gate ∧
      jsIncludes (jsLower rawName) "gate" = false then
    "Gate " ++ rawName
  else rawName

/-- `Stations.tsx` `handleCreateStation` validation (lines 560–603): empty
trimmed name fails first; then a duplicate check comparing each existing
name lowercased (`(s.name || '').toLowerCase()`) against the trimmed
lowercased input; on success the final name is the gate-normalized trimmed
name. -/
def handleCreateStation (stations : List Station) (createName : String)
    (createType : Category) : Except CreateError String :=
  let rawName := jsTrim createName
  if rawName = "" then Except.error CreateError.emptyName
  else if stations.any (fun s =>
      jsLower (jsOr s.name "") = jsLower rawName) then
    Except.error CreateError.duplicateName
  else Except.ok (gateFinalName rawName createType)

/-- The station list after `handleCreateStation`: unchanged on a validation
failure, the created station appended on success (the server is assumed to
echo the created record back, as the optimistic local update relies on). -/
def createStationList (stations : List Station) (createName : String)
    (createType : Category) (newId : Nat) : List Station :=
  match handleCreateStation stations createName createType with
  | Except.error _ => stations
  | Except.ok finalName =>
    stations ++
      [{ id := newId
         name := some finalName
         stationType := some (if createType = Category.gate then "gate"
           else "building")
         active := some true }]

/-- `Stations.tsx` `handleRenameStation` validation (lines 623–637): empty
trimmed name fails; otherwise the gate-normalized trimmed name is used. No
duplicate check is performed, and the existing station list is not
consulted at all. -/
def handleRenameStation (renameName : String) (renameType : Category) :
    Except RenameError String :=
  let rawName := jsTrim renameName
  if rawName = "" then Except.error RenameError.emptyName
  else Except.ok (gateFinalName rawName renameType)

/-! ### Stations: guard-assignment selection (C10) -/

/-- `Stations.tsx` `handleToggleGuardSelection` (lines 533–535): a present
id is removed (every occurrence, via `filter`), an absent one appended. -/
def handleToggleGuardSelection (prev : List Nat) (guardId : Nat) :
    List Nat :=
  if prev.contains guardId then prev.filter (fun id => id ≠ guardId)
  else prev ++ [guardId]

/-- `Stations.tsx` `handleSaveAssignments` (lines 537–549): the payload of
`updateStationGuards` is the full current selection, sent as-is. -/
def handleSaveAssignments (selectedStationId : Option Nat)
    (selectedGuardIds : List Nat) : Option (Nat × List Nat) :=
  match selectedStationId with
  | none => none
  | some sid => some (sid, selectedGuardIds)

/-! ### Concrete fixtures (used by witnesses and counterexamples) -/

/-- A station with a missing type and a gate-like name. -/
def stWestGate : Station :=
  { id := 1, name := some "West Gate", stationType := none, active := some true }

/-- A station whose stored name carries surrounding whitespace. -/
def stSpacedGate1 : Station :=
  { id := 1, name := some " Gate 1 ", stationType := some "gate", active := some true }

/-- A station named in lowercase. -/
def stLowerGate7 : Station :=
  { id := 1, name := some "gate 7", stationType := some "gate", active := some true }

/-- An ordinary gate station. -/
def stGate1 : Station :=
  { id := 1, name := some "Gate 1", stationType := some "gate", active := some true }

/-- The spec §8 example logs. -/
def exLog1 : VisitorLogDTO :=
  { visitorLogID := 1, fullName := some "A", location := some "Gate 1", date := some "2024-01-01" }

/-- Second §8 example log. -/
def exLog2 : VisitorLogDTO :=
  { visitorLogID := 2, fullName := some "B", location := some "Gate 1", date := some "2024-01-01" }

/-- Third §8 example log. -/
def exLog3 : VisitorLogDTO :=
  { visitorLogID := 3, fullName := some "A", location := some "Lobby", date := some "2024-01-02" }

/-- A log at a non-numeric location, logged first. -/
def cexLogA : VisitorLogDTO :=
  { visitorLogID := 1, fullName := some "A", location := some "Lobby", date := some "2024-01-01" }

/-- A log at a location whose name is a canonical integer string. -/
def cexLogB : VisitorLogDTO :=
  { visitorLogID := 2, fullName := some "B", location := some "101", date := some "2024-01-01" }

/-! ## Helper lemmas -/

theorem mem_firstOccursAux {α : Type} [DecidableEq α] (l : List α) :
    ∀ (acc : List α) (x : α),
      x ∈ l.foldl (fun acc x => if x ∈ acc then acc else acc ++ [x]) acc ↔
        x ∈ acc ∨ x ∈ l := by
  induction l with
  | nil => intro acc x; simp
  | cons y ys ih =>
    intro acc x
    simp only [List.foldl_cons, ih, List.mem_cons]
    by_cases hy : y ∈ acc
    · simp only [if_pos hy]
      constructor
      · rintro (h | h)
        · exact Or.inl h
        · exact Or.inr (Or.inr h)
      · rintro (h | h | h)
        · exact Or.inl h
        · exact Or.inl (h ▸ hy)
        · exact Or.inr h
    · simp only [if_neg hy, List.mem_append, List.mem_singleton]
      tauto

theorem mem_firstOccurs {α : Type} [DecidableEq α] {l : List α} {x : α} :
    x ∈ firstOccurs l ↔ x ∈ l := by
  unfold firstOccurs
  rw [mem_firstOccursAux]
  simp

theorem nodup_firstOccursAux {α : Type} [DecidableEq α] (l : List α) :
    ∀ (acc : List α), acc.Nodup →
      (l.foldl (fun acc x => if x ∈ acc then acc else acc ++ [x]) acc).Nodup := by
  induction l with
  | nil => intro acc h; simpa using h
  | cons y ys ih =>
    intro acc h
    simp only [List.foldl_cons]
    by_cases hy : y ∈ acc
    · rw [if_pos hy]; exact ih acc h
    · rw [if_neg hy]
      refine ih _ ?_
      rw [List.nodup_append]
      exact ⟨h, List.nodup_singleton y, by
        intro a ha hb
        rw [List.mem_singleton] at hb
        exact hy (hb ▸ ha)⟩

theorem nodup_firstOccurs {α : Type} [DecidableEq α] (l : List α) :
    (firstOccurs l).Nodup :=
  nodup_firstOccursAux l [] List.nodup_nil

theorem length_firstOccurs_eq_dedup {α : Type} [DecidableEq α] (l : List α) :
    (firstOccurs l).length = l.dedup.length := by
  have hfin : (firstOccurs l).toFinset = l.dedup.toFinset := by
    ext x
    simp [mem_firstOccurs, List.mem_dedup]
  calc (firstOccurs l).length
      = (firstOccurs l).toFinset.card :=
        (List.toFinset_card_of_nodup (nodup_firstOccurs l)).symm
    _ = l.dedup.toFinset.card := by rw [hfin]
    _ = l.dedup.length := List.toFinset_card_of_nodup (List.nodup_dedup l)

theorem insertLe_perm {α : Type} (le : α → α → Bool) (x : α) (l : List α) :
    List.Perm (insertLe le x l) (x :: l) := by
  induction l with
  | nil => simp [insertLe]
  | cons y ys ih =>
    unfold insertLe
    by_cases h : le x y
    · rw [if_pos h]
    · rw [if_neg h]
      exact (ih.cons y).trans (List.Perm.swap x y ys)

theorem sortLe_perm {α : Type} (le : α → α → Bool) (l : List α) :
    List.Perm (sortLe le l) l := by
  induction l with
  | nil => simp [sortLe]
  | cons y ys ih =>
    have h1 : sortLe le (y :: ys) = insertLe le y (sortLe le ys) := rfl
    rw [h1]
    exact (insertLe_perm le y (sortLe le ys)).trans (ih.cons y)

theorem stationMatchesType_iff (c : Category) (s : Station) :
    stationMatchesType c s = true ↔
      (classify s = c ∨ isLegacyStation s) := by
  simp only [stationMatchesType, classify, isLegacyStation]
  by_cases hg : jsLower (jsOr s.stationType "") = "gate"
  · simp only [hg]
    cases c <;> simp
  · by_cases hb : jsLower (jsOr s.stationType "") = "building"
    · simp only [hb]
      cases c <;> simp
    · have hnor : ¬(jsLower (jsOr s.stationType "") = "gate" ∨
          jsLower (jsOr s.stationType "") = "building") := by
        rintro (h | h)
        · exact hg h
        · exact hb h
      simp only [if_neg hnor, if_neg hg, if_neg hb]
      by_cases hn : jsLower (jsOr s.name "") = ""
      · have hng : jsIncludes "" "gate" = false := by decide
        simp only [hn]
        cases c <;> simp [hng, hg, hb]
      · simp only [if_neg hn]
        cases hinc : jsIncludes (jsLower (jsOr s.name "")) "gate" <;>
          cases c <;> simp [hinc, hn, hg, hb]

theorem firstOccurs_append_singleton {α : Type} [DecidableEq α]
    (pre : List α) (k : α) :
    firstOccurs (pre ++ [k]) =
      if k ∈ firstOccurs pre then firstOccurs pre
      else firstOccurs pre ++ [k] := by
  unfold firstOccurs
  rw [List.foldl_append]
  rfl

theorem countInsert_counts (pre : List String) (k : String) :
    countInsert ((firstOccurs pre).map fun x => (x, List.count x pre)) k =
      (firstOccurs (pre ++ [k])).map
        fun x => (x, List.count x (pre ++ [k])) := by
  have hkeys : (((firstOccurs pre).map
      fun x => (x, List.count x pre)).any fun e => e.1 = k) = true ↔
      k ∈ pre := by
    rw [List.any_eq_true]
    constructor
    · rintro ⟨e, he, hek⟩
      rw [List.mem_map] at he
      obtain ⟨x, hx, hfx⟩ := he
      have hek' : e.1 = k := of_decide_eq_true hek
      rw [← hfx] at hek'
      rw [← hek']
      exact mem_firstOccurs.mp hx
    · intro hk
      refine ⟨(k, List.count k pre),
        List.mem_map.mpr ⟨k, mem_firstOccurs.mpr hk, rfl⟩, by simp⟩
  unfold countInsert
  by_cases hk : k ∈ pre
  · rw [if_pos (hkeys.mpr hk)]
    rw [firstOccurs_append_singleton, if_pos (mem_firstOccurs.mpr hk),
      List.map_map]
    apply List.map_congr_left
    intro x hx
    by_cases hxk : x = k
    · subst hxk
      simp [List.count_append, List.count_singleton]
    · have hne : (k == x) = false := by
        rw [beq_eq_false_iff_ne]
        exact fun hc => hxk hc.symm
      simp [List.count_append, List.count_singleton, hne, hxk]
  · rw [if_neg (fun hc => hk (hkeys.mp hc))]
    rw [firstOccurs_append_singleton,
      if_neg (fun hc => hk (mem_firstOccurs.mp hc)), List.map_append]
    have hlast : ([k].map fun x => (x, List.count x (pre ++ [k]))) =
        [(k, 1)] := by
      have hzero : List.count k pre = 0 := List.count_eq_zero.mpr hk
      simp [List.count_append, List.count_singleton, hzero]
    rw [hlast]
    have hrest : ((firstOccurs pre).map
        fun x => (x, List.count x (pre ++ [k]))) =
        ((firstOccurs pre).map fun x => (x, List.count x pre)) := by
      apply List.map_congr_left
      intro x hx
      have hxk : x ≠ k := fun hc => hk (hc ▸ mem_firstOccurs.mp hx)
      have hne : (k == x) = false := by
        rw [beq_eq_false_iff_ne]
        exact fun hc => hxk hc.symm
      simp [List.count_append, List.count_singleton, hne]
    rw [hrest]

theorem buildCounts_aux (locs : List String) :
    ∀ pre : List String,
      List.foldl countInsert
        ((firstOccurs pre).map fun x => (x, List.count x pre)) locs =
      (firstOccurs (pre ++ locs)).map
        fun x => (x, List.count x (pre ++ locs)) := by
  induction locs with
  | nil =>
    intro pre
    simp
  | cons k rest ih =>
    intro pre
    rw [List.foldl_cons, countInsert_counts, ih (pre ++ [k])]
    simp [List.append_assoc]

theorem buildCounts_eq (locs : List String) :
    buildCounts locs =
      (firstOccurs locs).map fun x => (x, List.count x locs) := by
  have h := buildCounts_aux locs []
  simpa [buildCounts, firstOccurs] using h

theorem maxCountE_cons (x : String × Nat) (xs : List (String × Nat)) :
    maxCountE (x :: xs) = max x.2 (maxCountE xs) := rfl

theorem sortByCountDesc_head (l : List (String × Nat)) :
    (sortByCountDesc l).head? = l.find? fun e => e.2 == maxCountE l := by
  induction l with
  | nil => rfl
  | cons x xs ih =>
    have hstep : sortByCountDesc (x :: xs) =
        insertLe (fun a b => decide (b.2 ≤ a.2)) x (sortByCountDesc xs) := rfl
    cases hxs : sortByCountDesc xs with
    | nil =>
      have hempty : xs = [] := by
        have hlen := (sortLe_perm (fun a b => decide (b.2 ≤ a.2)) xs).length_eq
        rw [show sortLe (fun a b => decide (b.2 ≤ a.2)) xs =
          sortByCountDesc xs from rfl, hxs] at hlen
        exact List.length_eq_zero.mp hlen.symm
      subst hempty
      rw [hstep, hxs]
      have hmax : maxCountE [x] = x.2 := by
        rw [maxCountE_cons]
        show max x.2 (maxCountE []) = x.2
        rw [show maxCountE [] = 0 from rfl]
        exact Nat.max_zero x.2
      rw [show List.find? (fun e => e.2 == maxCountE [x]) [x] =
        some x from by rw [hmax]; simp [List.find?]]
      rfl
    | cons z zs =>
      have hfind : xs.find? (fun e => e.2 == maxCountE xs) = some z := by
        rw [← ih, hxs]
        rfl
      have hpz := List.find?_some hfind
      have hz : z.2 = maxCountE xs := eq_of_beq hpz
      have hcons : insertLe (fun a b => decide (b.2 ≤ a.2)) x (z :: zs) =
          if decide (z.2 ≤ x.2) = true then x :: z :: zs
          else z :: insertLe (fun a b => decide (b.2 ≤ a.2)) x zs := rfl
      rw [hstep, hxs, hcons]
      by_cases hle : z.2 ≤ x.2
      · rw [if_pos (decide_eq_true hle)]
        have hmax : maxCountE (x :: xs) = x.2 := by
          rw [maxCountE_cons, ← hz]
          exact Nat.max_eq_left hle
        rw [@List.find?_cons_of_pos _ (fun e : String × Nat =>
          e.2 == maxCountE (x :: xs)) x xs (by rw [hmax]; simp)]
        rfl
      · rw [if_neg (fun hc => hle (of_decide_eq_true hc))]
        have hmax : maxCountE (x :: xs) = maxCountE xs := by
          rw [maxCountE_cons, ← hz]
          omega
        have hpx : ¬ ((fun e : String × Nat =>
            e.2 == maxCountE (x :: xs)) x = true) := by
          intro hc
          have hx2 : x.2 = maxCountE (x :: xs) := eq_of_beq hc
          rw [hmax, ← hz] at hx2
          omega
        rw [@List.find?_cons_of_neg _ (fun e : String × Nat =>
          e.2 == maxCountE (x :: xs)) x xs hpx, hmax, ← ih, hxs]
        rfl

theorem insertLe_map {α β : Type} (f : α → β) (le : β → β → Bool) (x : α)
    (l : List α) :
    insertLe le (f x) (l.map f) =
      (insertLe (fun a b => le (f a) (f b)) x l).map f := by
  induction l with
  | nil => rfl
  | cons y ys ih =>
    have h1 : insertLe le (f x) (f y :: ys.map f) =
        if le (f x) (f y) = true then f x :: f y :: ys.map f
        else f y :: insertLe le (f x) (ys.map f) := rfl
    have h2 : insertLe (fun a b => le (f a) (f b)) x (y :: ys) =
        if le (f x) (f y) = true then x :: y :: ys
        else y :: insertLe (fun a b => le (f a) (f b)) x ys := rfl
    rw [List.map_cons, h1, h2]
    by_cases hc : le (f x) (f y) = true
    · rw [if_pos hc, if_pos hc]
      rfl
    · rw [if_neg hc, if_neg hc, List.map_cons, ih]

theorem sortLe_map {α β : Type} (f : α → β) (le : β → β → Bool)
    (l : List α) :
    sortLe le (l.map f) = (sortLe (fun a b => le (f a) (f b)) l).map f := by
  induction l with
  | nil => rfl
  | cons x xs ih =>
    show insertLe le (f x) (sortLe le (xs.map f)) = _
    rw [ih]
    exact insertLe_map f le x (sortLe (fun a b => le (f a) (f b)) xs)

theorem entriesOrder_map (keys : List String) :
    entriesOrder ((firstOccurs keys).map fun x => (x, List.count x keys)) =
      (entriesKeyOrder keys).map fun x => (x, List.count x keys) := by
  unfold entriesOrder entriesKeyOrder
  rw [List.filter_map, List.filter_map, sortLe_map, List.map_append]
  rfl

theorem maxfold_perm (f : String → Nat) {l₁ l₂ : List String}
    (h : l₁.Perm l₂) :
    l₁.foldr (fun k a => max (f k) a) 0 =
      l₂.foldr (fun k a => max (f k) a) 0 := by
  induction h with
  | nil => rfl
  | cons x _ ih =>
    rw [List.foldr_cons, List.foldr_cons, ih]
  | swap x y l =>
    rw [List.foldr_cons, List.foldr_cons, List.foldr_cons, List.foldr_cons]
    exact max_left_comm _ _ _
  | trans _ _ ih1 ih2 => exact ih1.trans ih2

theorem entriesKeyOrder_perm (keys : List String) :
    (entriesKeyOrder keys).Perm (firstOccurs keys) := by
  unfold entriesKeyOrder
  refine List.Perm.trans ?_ (List.filter_append_perm isArrayIndex
    (firstOccurs keys))
  exact List.Perm.append_right _ (sortLe_perm _ _)

theorem topCountKey_eq_specPickJs (keys : List String) :
    topCountKey (buildCounts keys) = specPickJs keys := by
  unfold topCountKey
  rw [buildCounts_eq, entriesOrder_map, sortByCountDesc_head]
  have hmax : maxCountE ((entriesKeyOrder keys).map
      fun x => (x, List.count x keys)) = maxCountOf keys := by
    unfold maxCountE maxCountOf
    rw [List.foldr_map]
    exact maxfold_perm (fun k => List.count k keys)
      (entriesKeyOrder_perm keys)
  rw [hmax, List.find?_map]
  rw [Option.map_map]
  have hcomp : ((fun e : String × Nat => e.2 == maxCountOf keys) ∘
      fun x => (x, List.count x keys)) =
      fun k => List.count k keys == maxCountOf keys := rfl
  rw [hcomp]
  unfold specPickJs
  cases List.find? (fun k => List.count k keys == maxCountOf keys)
      (entriesKeyOrder keys) with
  | none => rfl
  | some a => rfl

theorem le_foldr_max {α : Type} (f : α → Nat) :
    ∀ (l : List α) (x : α), x ∈ l →
      f x ≤ l.foldr (fun k a => max (f k) a) 0 := by
  intro l
  induction l with
  | nil => intro x hx; exact absurd hx (List.not_mem_nil x)
  | cons y ys ih =>
    intro x hx
    rcases List.mem_cons.mp hx with hxy | hxs
    · subst hxy
      exact le_max_left _ _
    · exact le_trans (ih x hxs) (le_max_right _ _)

theorem foldr_max_attained {α : Type} (f : α → Nat) :
    ∀ l : List α, l ≠ [] →
      ∃ x ∈ l, l.foldr (fun k a => max (f k) a) 0 = f x := by
  intro l
  induction l with
  | nil => intro h; exact absurd rfl h
  | cons y ys ih =>
    intro _
    by_cases hys : ys = []
    · subst hys
      exact ⟨y, List.mem_singleton.mpr rfl, Nat.max_zero (f y)⟩
    · obtain ⟨x, hx, hfx⟩ := ih hys
      rcases le_total (f y) (f x) with hyx | hxy
      · refine ⟨x, List.mem_cons_of_mem y hx, ?_⟩
        rw [List.foldr_cons, hfx]
        exact Nat.max_eq_right hyx
      · refine ⟨y, List.mem_cons_self y ys, ?_⟩
        rw [List.foldr_cons, hfx]
        exact Nat.max_eq_left hxy

theorem count_le_maxCountOf (keys : List String) (x : String)
    (hx : x ∈ keys) : List.count x keys ≤ maxCountOf keys :=
  le_foldr_max (fun k => List.count k keys) (firstOccurs keys) x
    (mem_firstOccurs.mpr hx)

theorem specPick_spec (keys : List String) (h : keys ≠ []) :
    ∃ m, specPick keys = some m ∧ m ∈ keys ∧
      ∀ x ∈ keys, List.count x keys ≤ List.count m keys := by
  have hne : firstOccurs keys ≠ [] := by
    intro hc
    obtain ⟨y, hy⟩ := List.exists_mem_of_ne_nil keys h
    have : y ∈ firstOccurs keys := mem_firstOccurs.mpr hy
    rw [hc] at this
    exact List.not_mem_nil y this
  obtain ⟨k0, hk0, hfk0⟩ :=
    foldr_max_attained (fun k => List.count k keys) (firstOccurs keys) hne
  have hsome : (List.find? (fun k => List.count k keys == maxCountOf keys)
      (firstOccurs keys)).isSome := by
    rw [List.find?_isSome]
    exact ⟨k0, hk0, by
      have : maxCountOf keys = List.count k0 keys := hfk0
      rw [this]
      simp⟩
  obtain ⟨m, hm⟩ := Option.isSome_iff_exists.mp hsome
  refine ⟨m, hm, mem_firstOccurs.mp (List.mem_of_find?_eq_some hm), ?_⟩
  intro x hx
  have hpm := List.find?_some hm
  have hmmax : List.count m keys = maxCountOf keys := eq_of_beq hpm
  rw [hmmax]
  exact count_le_maxCountOf keys x hx

theorem firstOccurs_ne_nil {α : Type} [DecidableEq α] {keys : List α}
    (h : keys ≠ []) : firstOccurs keys ≠ [] := by
  intro hc
  obtain ⟨y, hy⟩ := List.exists_mem_of_ne_nil keys h
  have hy' : y ∈ firstOccurs keys := mem_firstOccurs.mpr hy
  rw [hc] at hy'
  exact List.not_mem_nil y hy'

theorem specPickJs_spec (keys : List String) (h : keys ≠ []) :
    ∃ m, specPickJs keys = some m ∧ m ∈ keys ∧
      ∀ x ∈ keys, List.count x keys ≤ List.count m keys := by
  obtain ⟨k0, hk0, hfk0⟩ :=
    foldr_max_attained (fun k => List.count k keys) (firstOccurs keys)
      (firstOccurs_ne_nil h)
  have hk0' : k0 ∈ entriesKeyOrder keys :=
    (entriesKeyOrder_perm keys).mem_iff.mpr hk0
  have hsome : (List.find? (fun k => List.count k keys == maxCountOf keys)
      (entriesKeyOrder keys)).isSome := by
    rw [List.find?_isSome]
    exact ⟨k0, hk0', by
      have hmk : maxCountOf keys = List.count k0 keys := hfk0
      rw [hmk]
      simp⟩
  obtain ⟨m, hm⟩ := Option.isSome_iff_exists.mp hsome
  have hmem : m ∈ keys := mem_firstOccurs.mp
    ((entriesKeyOrder_perm keys).mem_iff.mp (List.mem_of_find?_eq_some hm))
  refine ⟨m, hm, hmem, ?_⟩
  intro x hx
  have hpm := List.find?_some hm
  have hmmax : List.count m keys = maxCountOf keys := eq_of_beq hpm
  rw [hmmax]
  exact count_le_maxCountOf keys x hx

theorem jsOr_ne_empty (o : Option String) (d : String) (hd : d ≠ "") :
    jsOr o d ≠ "" := by
  cases o with
  | none => exact hd
  | some s =>
    show (if s = "" then d else s) ≠ ""
    by_cases hs : s = ""
    · rw [if_pos hs]
      exact hd
    · rw [if_neg hs]
      exact hs

theorem specPick_top (keys : List String) (hne : ∀ x ∈ keys, x ≠ "")
    (h : keys ≠ []) :
    ∃ m, jsOrOpt (specPick keys) "N/A" = m ∧ m ∈ keys ∧
      ∀ x ∈ keys, List.count x keys ≤ List.count m keys := by
  obtain ⟨m, hm, hmem, hmax⟩ := specPick_spec keys h
  refine ⟨m, ?_, hmem, hmax⟩
  rw [hm]
  show (if m = "" then "N/A" else m) = m
  rw [if_neg (hne m hmem)]

theorem specPickJs_top (keys : List String) (hne : ∀ x ∈ keys, x ≠ "")
    (h : keys ≠ []) :
    ∃ m, jsOrOpt (specPickJs keys) "N/A" = m ∧ m ∈ keys ∧
      ∀ x ∈ keys, List.count x keys ≤ List.count m keys := by
  obtain ⟨m, hm, hmem, hmax⟩ := specPickJs_spec keys h
  refine ⟨m, ?_, hmem, hmax⟩
  rw [hm]
  show (if m = "" then "N/A" else m) = m
  rw [if_neg (hne m hmem)]

theorem hasSub_head_mem (l : List Char) (c : Char) (cs : List Char)
    (h : hasSub l (c :: cs) = true) : c ∈ l := by
  induction l with
  | nil => simp [hasSub] at h
  | cons d rest ih =>
    have hor : (prefChars (c :: cs) (d :: rest) ||
        hasSub rest (c :: cs)) = true := h
    rcases Bool.or_eq_true_iff.mp hor with hpre | hrec
    · have hand : (c == d && prefChars cs rest) = true := hpre
      have hcd : c = d := eq_of_beq (Bool.and_eq_true_iff.mp hand).1
      rw [hcd]
      exact List.mem_cons_self d rest
    · exact List.mem_cons_of_mem d (ih hrec)

theorem isArrayIndex_no_gate (x : String) (h : isArrayIndex x = true) :
    jsIncludes (jsLower x) "gate" = false := by
  cases hg : jsIncludes (jsLower x) "gate" with
  | false => rfl
  | true =>
    exfalso
    have hmem : 'g' ∈ (jsLower x).data := by
      have hsub : hasSub (jsLower x).data ('g' :: "ate".data) = true := hg
      exact hasSub_head_mem _ _ _ hsub
    have hmem' : 'g' ∈ x.data.map lowerChar := hmem
    obtain ⟨c, hc, hcg⟩ := List.mem_map.mp hmem'
    have hdig : isDigitChar c = true := by
      unfold isArrayIndex at h
      cases hx : x.data with
      | nil => rw [hx] at h; simp at h
      | cons c0 cs0 =>
        rw [hx] at h
        simp only [Bool.and_eq_true, List.all_eq_true] at h
        rw [hx] at hc
        exact h.1.1 c hc
    have hbound : 48 ≤ c.toNat ∧ c.toNat ≤ 57 := by
      simpa [isDigitChar] using hdig
    have hnc : ¬(65 ≤ c.toNat ∧ c.toNat ≤ 90) := by omega
    unfold lowerChar at hcg
    rw [if_neg hnc] at hcg
    have h103 : c.toNat = 103 := congrArg Char.toNat hcg
    omega

theorem gateKey_includes (td : List VisitorLogDTO) :
    ∀ x ∈ gateKeys td, jsIncludes (jsLower x) "gate" = true := by
  intro x hx
  simp only [gateKeys, List.mem_filterMap] at hx
  obtain ⟨d, _, hdx⟩ := hx
  cases hloc : d.location with
  | none =>
    rw [hloc] at hdx
    rw [if_neg (by decide)] at hdx
    exact Option.noConfusion hdx
  | some s =>
    rw [hloc] at hdx
    by_cases hs : s = ""
    · subst hs
      rw [if_neg (by decide)] at hdx
      exact Option.noConfusion hdx
    · have h2 : jsOr (some s) "" = s := by
        show (if s = "" then "" else s) = s
        rw [if_neg hs]
      rw [h2] at hdx
      by_cases hg : jsIncludes (jsLower s) "gate" = true
      · rw [if_pos hg] at hdx
        have h3 : jsOr (some s) "Unknown gate" = s := by
          show (if s = "" then "Unknown gate" else s) = s
          rw [if_neg hs]
        rw [h3] at hdx
        rw [← Option.some.inj hdx]
        exact hg
      · rw [if_neg hg] at hdx
        exact Option.noConfusion hdx

theorem specPickJs_gate (td : List VisitorLogDTO) :
    specPickJs (gateKeys td) = specPick (gateKeys td) := by
  have hni : ∀ x ∈ firstOccurs (gateKeys td), isArrayIndex x = false := by
    intro x hx
    cases hia : isArrayIndex x with
    | false => rfl
    | true =>
      have hinc := gateKey_includes td x (mem_firstOccurs.mp hx)
      rw [isArrayIndex_no_gate x hia] at hinc
      exact absurd hinc Bool.false_ne_true
  unfold specPickJs specPick entriesKeyOrder
  have h1 : (firstOccurs (gateKeys td)).filter isArrayIndex = [] :=
    List.filter_eq_nil_iff.mpr fun a ha => by
      rw [hni a ha]
      exact Bool.false_ne_true
  have h2 : (firstOccurs (gateKeys td)).filter (fun k => !(isArrayIndex k)) =
      firstOccurs (gateKeys td) :=
    List.filter_eq_self.mpr fun a ha => by rw [hni a ha]; rfl
  rw [h1, h2]
  rfl

theorem buildingKeys_ne_empty (td : List VisitorLogDTO) :
    ∀ x ∈ buildingKeys td, x ≠ "" := by
  intro x hx
  simp only [buildingKeys, List.mem_map] at hx
  obtain ⟨d, _, hdx⟩ := hx
  rw [← hdx]
  exact jsOr_ne_empty _ _ (by decide)

theorem gateKeys_ne_empty (td : List VisitorLogDTO) :
    ∀ x ∈ gateKeys td, x ≠ "" := by
  intro x hx
  simp only [gateKeys, List.mem_filterMap] at hx
  obtain ⟨d, _, hdx⟩ := hx
  by_cases hc : jsIncludes (jsLower (jsOr d.location "")) "gate" = true
  · rw [if_pos hc] at hdx
    have hx' : jsOr d.location "Unknown gate" = x := Option.some.inj hdx
    rw [← hx']
    exact jsOr_ne_empty _ _ (by decide)
  · rw [if_neg hc] at hdx
    exact Option.noConfusion hdx

theorem totalPages_eq_ceil (n ps : Nat) (hps : 0 < ps) :
    totalPages n ps = (n + ps - 1) / ps := by
  unfold totalPages
  by_cases hn : n = 0
  · subst hn
    rw [if_pos rfl]
    exact (Nat.div_eq_of_lt (by omega)).symm
  · rw [if_neg hn]

theorem totalPages_succ (n ps : Nat) (hps : 0 < ps) (hn : n ≠ 0) :
    totalPages n ps = totalPages (n - ps) ps + 1 := by
  unfold totalPages
  rw [if_neg hn]
  by_cases hle : n - ps = 0
  · rw [if_pos hle]
    have h1 : n + ps - 1 = (n - 1) + ps := by omega
    rw [h1, Nat.add_div_right _ hps]
    have h2 : (n - 1) / ps = 0 := Nat.div_eq_of_lt (by omega)
    omega
  · rw [if_neg hle]
    have h1 : n + ps - 1 = (n - 1) + ps := by omega
    have h2 : n - ps + ps - 1 = n - 1 := by omega
    rw [h1, Nat.add_div_right _ hps, h2]

theorem flatMap_pageSlice_aux {α : Type} (ps : Nat) (hps : 0 < ps) :
    ∀ (n : Nat) (l : List α), l.length ≤ n →
      (List.range (totalPages l.length ps)).flatMap (pageSlice l ps) = l := by
  intro n
  induction n with
  | zero =>
    intro l hl
    have hnil : l = [] := List.length_eq_zero.mp (Nat.le_zero.mp hl)
    subst hnil
    simp [totalPages]
  | succ m ih =>
    intro l hl
    by_cases hnil : l = []
    · subst hnil
      simp [totalPages]
    · have hlen : l.length ≠ 0 := fun h => hnil (List.length_eq_zero.mp h)
      rw [totalPages_succ l.length ps hps hlen, List.range_succ_eq_map,
        List.flatMap_cons, List.flatMap_map]
      have hslice0 : pageSlice l ps 0 = l.take ps := by
        unfold pageSlice
        simp
      have hsliceS : (fun k => pageSlice l ps (Nat.succ k)) =
          pageSlice (l.drop ps) ps := by
        funext k
        unfold pageSlice
        rw [List.drop_drop]
        have harith : ps + k * ps = Nat.succ k * ps := by
          rw [Nat.succ_mul]
          omega
        rw [harith]
      rw [hslice0, hsliceS]
      have hdl : (l.drop ps).length = l.length - ps := List.length_drop ps l
      rw [← hdl, ih (l.drop ps) (by rw [hdl]; omega)]
      exact List.take_append_drop ps l

/-! ## Claim theorems -/

/-- C1: refuted on the code. For a visitor-log row whose location matches a
station with a missing `stationType` and a name containing "gate", the
classifier (spec §4.1) — and the `Stations.tsx` list icon — assign GATE,
but the `LogBook.tsx` log-row icon selection shows the BUILDING icon: a
matched station with a missing type falls into the `matched` branch and the
name heuristic is consulted only when no station matched. The classification
is therefore not applied identically at this call site. -/
theorem claim_C1_icon_divergence :
    classify stWestGate = Category.gate ∧
    stationListIcon stWestGate = Icon.faDungeon ∧
    logRowIcon [stWestGate] (some "West Gate") = some Icon.farBuilding := by
  refine ⟨by decide, by decide, by decide⟩

/-- C2 counterexample: the claimed duplicate rule trims both sides, but the
code lowercases without trimming the existing station's name. With an
existing station named `" Gate 1 "` and input `"Gate 1"`, the two names are
equal after trimming and lowercasing both sides — the claim demands
`DuplicateNameError` — yet `handleCreateStation` succeeds. -/
theorem claim_C2_counterexample :
    handleCreateStation [stSpacedGate1] "Gate 1" Category.building =
      Except.ok "Gate 1" ∧
    jsLower (jsTrim (jsOr stSpacedGate1.name "")) =
      jsLower (jsTrim "Gate 1") := by
  refine ⟨rfl, by decide⟩

/-- C2 (amended): `createStation` fails with `EmptyNameError` when the
trimmed name is empty; fails with `DuplicateNameError` when some existing
station's name, lowercased but NOT trimmed, equals the trimmed lowercased
input; otherwise returns the trimmed name with "Gate " prepended exactly
when the category is gate and the trimmed name does not contain "gate"
case-insensitively. On a validation failure the station list is unchanged. -/
theorem claim_C2_create_validation (stations : List Station) (name : String)
    (cat : Category) (newId : Nat) :
    (jsTrim name = "" →
      handleCreateStation stations name cat = Except.error CreateError.emptyName ∧
      createStationList stations name cat newId = stations) ∧
    (jsTrim name ≠ "" →
      (∃ s ∈ stations, jsLower (jsOr s.name "") = jsLower (jsTrim name)) →
      handleCreateStation stations name cat =
        Except.error CreateError.duplicateName ∧
      createStationList stations name cat newId = stations) ∧
    (jsTrim name ≠ "" →
      (¬ ∃ s ∈ stations, jsLower (jsOr s.name "") = jsLower (jsTrim name)) →
      handleCreateStation stations name cat = Except.ok
        (if cat = Category.gate ∧
            jsIncludes (jsLower (jsTrim name)) "gate" = false then
          "Gate " ++ jsTrim name
        else jsTrim name)) := by
  have hdup : (stations.any fun s =>
      jsLower (jsOr s.name "") = jsLower (jsTrim name)) = true ↔
      ∃ s ∈ stations, jsLower (jsOr s.name "") = jsLower (jsTrim name) := by
    simp [List.any_eq_true]
  refine ⟨?_, ?_, ?_⟩
  · intro h
    constructor
    · unfold handleCreateStation
      rw [if_pos h]
    · unfold createStationList handleCreateStation
      rw [if_pos h]
  · intro h hex
    have hany := hdup.mpr hex
    constructor
    · unfold handleCreateStation
      rw [if_neg h, if_pos hany]
    · unfold createStationList handleCreateStation
      rw [if_neg h, if_pos hany]
  · intro h hex
    have hany : (stations.any fun s =>
        jsLower (jsOr s.name "") = jsLower (jsTrim name)) ≠ true := by
      intro hc; exact hex (hdup.mp hc)
    unfold handleCreateStation
    rw [if_neg h, if_neg hany]
    unfold gateFinalName
    rfl

/-- C2 witness: the amended characterization at concrete inputs — an empty
name, a duplicate (lowercase-equal existing name), and a successful
gate-prefixed creation. -/
theorem claim_C2_create_validation_witness :
    handleCreateStation [] "   " Category.gate =
      Except.error CreateError.emptyName ∧
    handleCreateStation [stLowerGate7] "Gate 7" Category.gate =
      Except.error CreateError.duplicateName ∧
    handleCreateStation [] "3" Category.gate = Except.ok "Gate 3" := by
  refine ⟨?_, ?_, ?_⟩
  · exact ((claim_C2_create_validation [] "   " Category.gate 0).1
      (by decide)).1
  · exact ((claim_C2_create_validation [stLowerGate7] "Gate 7"
        Category.gate 0).2.1 (by decide)
      ⟨stLowerGate7, List.mem_singleton.mpr rfl, by decide⟩).1
  · have h := (claim_C2_create_validation [] "3" Category.gate 0).2.2
      (by decide) (by rintro ⟨s, hs, -⟩; exact absurd hs (by simp))
    simpa using h

/-- C7: `renameStation` fails with the empty-name error exactly when the
trimmed new name is empty; otherwise it succeeds with the trimmed name,
"Gate "-prepended exactly when the new category is gate and the name does
not contain "gate" case-insensitively. No duplicate check is performed: the
validation never consults the station list, so a rename colliding
case-insensitively with an existing station still succeeds. -/
theorem claim_C7_rename_validation (stations : List Station)
    (newName : String) (cat : Category) :
    (jsTrim newName = "" →
      handleRenameStation newName cat = Except.error RenameError.emptyName) ∧
    (jsTrim newName ≠ "" →
      handleRenameStation newName cat = Except.ok
        (if cat = Category.gate ∧
            jsIncludes (jsLower (jsTrim newName)) "gate" = false then
          "Gate " ++ jsTrim newName
        else jsTrim newName)) ∧
    ((∃ s ∈ stations, jsLower (jsOr s.name "") = jsLower (jsTrim newName)) →
      jsTrim newName ≠ "" →
      ∃ finalName, handleRenameStation newName cat = Except.ok finalName) := by
  refine ⟨?_, ?_, ?_⟩
  · intro h
    unfold handleRenameStation
    rw [if_pos h]
  · intro h
    unfold handleRenameStation
    rw [if_neg h]
    unfold gateFinalName
    rfl
  · intro _ h
    refine ⟨gateFinalName (jsTrim newName) cat, ?_⟩
    unfold handleRenameStation
    rw [if_neg h]

/-- C7 witness: the rename characterization at concrete inputs, including a
rename that collides with an existing station's name and still succeeds. -/
theorem claim_C7_rename_validation_witness :
    handleRenameStation "  " Category.gate =
      Except.error RenameError.emptyName ∧
    handleRenameStation "Lobby" Category.gate = Except.ok "Gate Lobby" ∧
    ∃ finalName, handleRenameStation "gate 1" Category.gate =
      Except.ok finalName := by
  refine ⟨?_, ?_, ?_⟩
  · exact (claim_C7_rename_validation [] "  " Category.gate).1 (by decide)
  · have h := (claim_C7_rename_validation [] "Lobby" Category.gate).2.1
      (by decide)
    simpa using h
  · exact (claim_C7_rename_validation [stGate1] "gate 1" Category.gate).2.2
      ⟨stGate1, List.mem_singleton.mpr rfl, by decide⟩ (by decide)

/-- C10: the guard-assignment selection stays duplicate-free — a toggle of a
present id removes every occurrence of it, a toggle of an absent id appends
it, so any sequence of toggles starting from a duplicate-free fetched set
keeps the list duplicate-free — and saving sends the full current selection
as the replacement set. -/
theorem claim_C10_selection (start toggles : List Nat) (sid : Nat)
    (sel : List Nat) (h : start.Nodup) :
    (toggles.foldl handleToggleGuardSelection start).Nodup ∧
    (∀ (l : List Nat) (g : Nat), g ∈ l →
      handleToggleGuardSelection l g = l.filter (fun id => id ≠ g)) ∧
    (∀ (l : List Nat) (g : Nat), g ∉ l →
      handleToggleGuardSelection l g = l ++ [g]) ∧
    handleSaveAssignments (some sid) sel = some (sid, sel) := by
  have hstep : ∀ (l : List Nat) (g : Nat), l.Nodup →
      (handleToggleGuardSelection l g).Nodup := by
    intro l g hl
    unfold handleToggleGuardSelection
    by_cases hmem : l.contains g
    · rw [if_pos hmem]
      exact List.Nodup.filter _ hl
    · rw [if_neg hmem]
      rw [List.nodup_append]
      refine ⟨hl, List.nodup_singleton g, ?_⟩
      intro a ha hb
      rw [List.mem_singleton] at hb
      subst hb
      exact hmem (List.elem_iff.mpr ha)
  refine ⟨?_, ?_, ?_, rfl⟩
  · clear sid sel
    induction toggles generalizing start with
    | nil => exact h
    | cons g gs ih =>
      exact ih (handleToggleGuardSelection start g) (hstep start g h)
  · intro l g hg
    unfold handleToggleGuardSelection
    rw [if_pos (List.elem_iff.mpr hg)]
  · intro l g hg
    unfold handleToggleGuardSelection
    rw [if_neg (fun hc => hg (List.elem_iff.mp hc))]

/-- C4: the log filter is a stable subsequence of the input, and an entry
passes exactly when it passes all three predicates: active-id membership
per the status filter; trimmed lowercased location equality when a specific
location is selected, a blank location never matching; and, for a non-empty
search term, an OR across the eight searched fields (missing fields as
empty strings) of lowercased substring containment. -/
theorem claim_C4_filter (data : List VisitorLogDTO) (activeLogIds : List Nat)
    (search : String) (statusFilter : StatusFilter)
    (locationFilter : String) :
    List.Sublist
      (filteredLogs data activeLogIds search statusFilter locationFilter)
      data ∧
    ∀ e, keepsLog activeLogIds search statusFilter locationFilter e = true ↔
      ((statusFilter = StatusFilter.active →
          e.visitorLogID ∈ activeLogIds) ∧
       (statusFilter = StatusFilter.inactive →
          e.visitorLogID ∉ activeLogIds) ∧
       (locationFilter ≠ "all" →
          jsLower (jsTrim (jsOr e.location "")) ≠ "" ∧
          jsLower (jsTrim (jsOr e.location "")) =
            jsLower (jsTrim locationFilter)) ∧
       (jsLower search ≠ "" →
          ∃ f ∈ searchFields e,
            jsIncludes (jsLower f) (jsLower search) = true)) := by
  refine ⟨List.filter_sublist data, ?_⟩
  intro e
  have hmem : activeLogIds.contains e.visitorLogID = true ↔
      e.visitorLogID ∈ activeLogIds := List.elem_iff
  unfold keepsLog
  by_cases h1 : statusFilter = StatusFilter.active ∧
      activeLogIds.contains e.visitorLogID = false
  · rw [if_pos h1]
    refine iff_of_false Bool.false_ne_true ?_
    intro hc
    have hmm : activeLogIds.contains e.visitorLogID = true :=
      hmem.mpr (hc.1 h1.1)
    rw [h1.2] at hmm
    exact Bool.false_ne_true hmm
  · rw [if_neg h1]
    by_cases h2 : statusFilter = StatusFilter.inactive ∧
        activeLogIds.contains e.visitorLogID = true
    · rw [if_pos h2]
      refine iff_of_false Bool.false_ne_true ?_
      intro hc
      exact (hc.2.1 h2.1) (hmem.mp h2.2)
    · rw [if_neg h2]
      have hstatus : (statusFilter = StatusFilter.active →
          e.visitorLogID ∈ activeLogIds) ∧
          (statusFilter = StatusFilter.inactive →
            e.visitorLogID ∉ activeLogIds) := by
        constructor
        · intro ha
          rw [← hmem]
          cases hb : activeLogIds.contains e.visitorLogID
          · exact absurd ⟨ha, hb⟩ h1
          · rfl
        · intro ha hm
          exact h2 ⟨ha, hmem.mpr hm⟩
      by_cases h3 : locationFilter ≠ "all" ∧
          (jsLower (jsTrim (jsOr e.location "")) = "" ∨
            jsLower (jsTrim (jsOr e.location "")) ≠
              jsLower (jsTrim locationFilter))
      · rw [if_pos h3]
        refine iff_of_false Bool.false_ne_true ?_
        intro hc
        rcases (hc.2.2.1 h3.1) with ⟨hne, heq⟩
        rcases h3.2 with hblank | hneq
        · exact hne hblank
        · exact hneq heq
      · rw [if_neg h3]
        have hloc : locationFilter ≠ "all" →
            jsLower (jsTrim (jsOr e.location "")) ≠ "" ∧
            jsLower (jsTrim (jsOr e.location "")) =
              jsLower (jsTrim locationFilter) := by
          intro hall
          constructor
          · intro hblank
            exact h3 ⟨hall, Or.inl hblank⟩
          · by_contra hneq
            exact h3 ⟨hall, Or.inr hneq⟩
        by_cases h4 : jsLower search = ""
        · rw [if_pos h4]
          simp only [true_iff]
          exact ⟨hstatus.1, hstatus.2, hloc, fun hc => absurd h4 hc⟩
        · rw [if_neg h4]
          rw [List.any_eq_true]
          constructor
          · intro hex
            exact ⟨hstatus.1, hstatus.2, hloc, fun _ => hex⟩
          · intro hc
            exact hc.2.2.2 h4

/-- C8: the station-tab filter preserves input order (subsequence of the
input), and a station is kept exactly when its classification matches the
selected category — or it is a "legacy" station with no usable name and no
recognized type, shown under every category — and it passes the
include-inactive gate (`active` omitted counting as active). -/
theorem claim_C8_station_listing (stations : List Station)
    (currentType : Category) (showInactive : Bool) :
    List.Sublist (filteredStations stations currentType showInactive)
      stations ∧
    ∀ s, keepsStation currentType showInactive s = true ↔
      ((classify s = currentType ∨ isLegacyStation s) ∧
       (showInactive = true ∨ s.active ≠ some false)) := by
  refine ⟨List.filter_sublist stations, ?_⟩
  intro s
  have htype : stationMatchesType currentType s = true ↔
      (classify s = currentType ∨ isLegacyStation s) :=
    stationMatchesType_iff currentType s
  unfold keepsStation
  cases hm : stationMatchesType currentType s with
  | false =>
    rw [if_pos rfl]
    refine iff_of_false Bool.false_ne_true ?_
    intro hc
    have hmt := htype.mpr hc.1
    rw [hm] at hmt
    exact Bool.false_ne_true hmt
  | true =>
    rw [if_neg (by decide : ¬(true = false))]
    have hcl : classify s = currentType ∨ isLegacyStation s := htype.mp hm
    cases showInactive
    · rw [if_pos rfl]
      simp [hcl]
    · rw [if_neg (by decide : ¬(true = false))]
      simp [hcl]

/-- C9: `buildOptions` yields exactly the distinct trimmed station names
that are non-blank and not the literal "N/A", each once (no duplicates),
ordered by the deterministic gate-aware comparator, which sorts embedded
numeric tokens numerically: for stations named "Gate 2" and "Gate 10" (in
either input order) "Gate 2" comes first. -/
theorem claim_C9_location_options :
    (∀ (stations : List Station) (x : String),
       x ∈ locationOptions stations ↔
         (x ≠ "" ∧ x ≠ "N/A" ∧
          ∃ s ∈ stations, jsTrim (jsOr s.name "") = x)) ∧
    (∀ stations : List Station, (locationOptions stations).Nodup) ∧
    locationOptions [⟨1, some "Gate 2", none, none⟩,
      ⟨2, some "Gate 10", none, none⟩] = ["Gate 2", "Gate 10"] ∧
    locationOptions [⟨2, some "Gate 10", none, none⟩,
      ⟨1, some "Gate 2", none, none⟩] = ["Gate 2", "Gate 10"] := by
  have hperm : ∀ stations : List Station, stations ≠ [] →
      List.Perm (locationOptions stations)
        (firstOccurs ((stations.map fun s => jsTrim (jsOr s.name "")).filter
          fun n => n ≠ "" ∧ n ≠ "N/A")) := by
    intro stations hst
    unfold locationOptions
    rw [if_neg hst]
    exact sortLe_perm _ _
  refine ⟨?_, ?_, by decide, by decide⟩
  · intro stations x
    by_cases hst : stations = []
    · subst hst
      simp [locationOptions]
    · rw [(hperm stations hst).mem_iff, mem_firstOccurs, List.mem_filter,
        List.mem_map]
      simp only [decide_eq_true_eq]
      tauto
  · intro stations
    by_cases hst : stations = []
    · subst hst
      simp [locationOptions]
    · exact ((hperm stations hst).symm).nodup (nodup_firstOccurs _)

/-- C5: for a positive page size, `totalPages` is the ceiling of
`totalElements / pageSize` and is zero exactly when the filtered list is
empty; the page used for slicing is `min(page, totalPages - 1)` clamped to
be at least 0 (stated over ℤ), never the raw page — slicing at the raw page
equals slicing at the clamped page; and the pages partition the filtered
list: their concatenation in page order is the filtered list, with no
overlap and no gaps. -/
theorem claim_C5_pagination (filtered : List VisitorLogDTO)
    (page pageSize : Nat) (hps : 0 < pageSize) :
    totalPages filtered.length pageSize =
      (filtered.length + pageSize - 1) / pageSize ∧
    (totalPages filtered.length pageSize = 0 ↔ filtered.length = 0) ∧
    ((currentPage page (totalPages filtered.length pageSize) : Int) =
      max 0 (min (page : Int)
        ((totalPages filtered.length pageSize : Int) - 1))) ∧
    pagedLogs filtered page pageSize = pageSlice filtered pageSize
      (currentPage page (totalPages filtered.length pageSize)) ∧
    pagedLogs filtered page pageSize = pagedLogs filtered
      (currentPage page (totalPages filtered.length pageSize)) pageSize ∧
    (List.range (totalPages filtered.length pageSize)).flatMap
      (pageSlice filtered pageSize) = filtered := by
  have hclamp : ∀ tp : Nat, currentPage (currentPage page tp) tp =
      currentPage page tp := by
    intro tp
    unfold currentPage
    by_cases htp : tp = 0
    · rw [if_pos htp, if_pos htp]
    · rw [if_neg htp, if_neg htp]
      omega
  refine ⟨totalPages_eq_ceil filtered.length pageSize hps, ?_, ?_, rfl, ?_, ?_⟩
  · unfold totalPages
    by_cases hn : filtered.length = 0
    · rw [if_pos hn]
      exact ⟨fun _ => hn, fun _ => rfl⟩
    · rw [if_neg hn]
      constructor
      · intro hdiv
        have hlt : filtered.length + pageSize - 1 < pageSize :=
          (Nat.div_eq_zero_iff hps).mp hdiv
        omega
      · intro h
        exact absurd h hn
  · unfold currentPage
    by_cases htp : totalPages filtered.length pageSize = 0
    · rw [if_pos htp, htp]
      have hmin : min (page : Int) ((0 : Nat) - 1 : Int) = -1 := by
        apply min_eq_right
        omega
      rw [show ((0 : Nat) : Int) - 1 = -1 by omega] at hmin ⊢
      rw [hmin]
      rfl
    · rw [if_neg htp]
      have htp1 : 1 ≤ totalPages filtered.length pageSize := by omega
      rw [Nat.cast_min]
      rw [show ((totalPages filtered.length pageSize - 1 : Nat) : Int) =
        (totalPages filtered.length pageSize : Int) - 1 by omega]
      apply (max_eq_right ?_).symm
      apply le_min
      · omega
      · omega
  · unfold pagedLogs
    rw [hclamp]
  · exact flatMap_pageSlice_aux pageSize hps filtered.length filtered
      (le_refl _)

/-- C5 witness: the pagination contract at a concrete filtered list of
three entries, a stale page index 5 and page size 2. -/
theorem claim_C5_pagination_witness :
    totalPages ([exLog1, exLog2, exLog3] : List VisitorLogDTO).length 2 =
      (([exLog1, exLog2, exLog3] : List VisitorLogDTO).length + 2 - 1) / 2 ∧
    (totalPages ([exLog1, exLog2, exLog3] : List VisitorLogDTO).length 2 = 0 ↔
      ([exLog1, exLog2, exLog3] : List VisitorLogDTO).length = 0) ∧
    ((currentPage 5 (totalPages
        ([exLog1, exLog2, exLog3] : List VisitorLogDTO).length 2) : Int) =
      max 0 (min ((5 : Nat) : Int) ((totalPages
        ([exLog1, exLog2, exLog3] : List VisitorLogDTO).length 2 : Int) - 1))) ∧
    pagedLogs [exLog1, exLog2, exLog3] 5 2 = pageSlice [exLog1, exLog2, exLog3] 2
      (currentPage 5 (totalPages
        ([exLog1, exLog2, exLog3] : List VisitorLogDTO).length 2)) ∧
    pagedLogs [exLog1, exLog2, exLog3] 5 2 = pagedLogs [exLog1, exLog2, exLog3]
      (currentPage 5 (totalPages
        ([exLog1, exLog2, exLog3] : List VisitorLogDTO).length 2)) 2 ∧
    (List.range (totalPages
        ([exLog1, exLog2, exLog3] : List VisitorLogDTO).length 2)).flatMap
      (pageSlice [exLog1, exLog2, exLog3] 2) = [exLog1, exLog2, exLog3] :=
  claim_C5_pagination [exLog1, exLog2, exLog3] 5 2 (by decide)

/-- C3 counterexample: with today-logs at locations "Lobby" then "101"
(counts tied at one each), the first-encountered-in-iteration-order
tie-break of the original claim picks "Lobby" (`specPick`), but the
program returns "101": `Object.entries` enumerates the canonical
integer-string key "101" ahead of "Lobby", and the stable descending
count-sort keeps that order on the tie. -/
theorem claim_C3_counterexample :
    (statsOf [cexLogA, cexLogB] [] "2024-01-01").map
      LogStats.frequentBuilding = some "101" ∧
    buildingKeys (todayLogsOf [cexLogA, cexLogB] "2024-01-01") =
      ["Lobby", "101"] ∧
    List.count "Lobby"
        (buildingKeys (todayLogsOf [cexLogA, cexLogB] "2024-01-01")) =
      List.count "101"
        (buildingKeys (todayLogsOf [cexLogA, cexLogB] "2024-01-01")) ∧
    specPick (buildingKeys (todayLogsOf [cexLogA, cexLogB] "2024-01-01")) =
      some "Lobby" := by
  refine ⟨rfl, rfl, rfl, rfl⟩

/-- C3 (amended): for a non-empty logs list, `frequentBuilding` is the
location value (unset locations counted as "Unknown") with the highest
occurrence count among the today-logs, ties broken by the first location
in `Object.entries` enumeration order of the count object — canonical
integer-string keys first in ascending numeric order, then the remaining
keys in first-encountered order (`specPickJs`) — and "N/A" when the
today-logs are empty; `highestGate` follows the same maximum-count and
tie-break rule restricted to locations whose lowercase form contains
"gate" (for which the enumeration order coincides with first-encountered
order, such keys never being canonical integer strings), and "N/A" when
none occurs. -/
theorem claim_C3_frequent_stats (data : List VisitorLogDTO)
    (activeLogIds : List Nat) (today : String) (h : data ≠ []) :
    ∃ st, statsOf data activeLogIds today = some st ∧
      st.frequentBuilding =
        jsOrOpt (specPickJs (buildingKeys (todayLogsOf data today))) "N/A" ∧
      st.highestGate =
        jsOrOpt (specPickJs (gateKeys (todayLogsOf data today))) "N/A" ∧
      specPickJs (gateKeys (todayLogsOf data today)) =
        specPick (gateKeys (todayLogsOf data today)) ∧
      (todayLogsOf data today = [] → st.frequentBuilding = "N/A") ∧
      (gateKeys (todayLogsOf data today) = [] → st.highestGate = "N/A") ∧
      (buildingKeys (todayLogsOf data today) ≠ [] →
        ∃ m, st.frequentBuilding = m ∧
          m ∈ buildingKeys (todayLogsOf data today) ∧
          ∀ x ∈ buildingKeys (todayLogsOf data today),
            List.count x (buildingKeys (todayLogsOf data today)) ≤
              List.count m (buildingKeys (todayLogsOf data today))) ∧
      (gateKeys (todayLogsOf data today) ≠ [] →
        ∃ m, st.highestGate = m ∧ m ∈ gateKeys (todayLogsOf data today) ∧
          ∀ x ∈ gateKeys (todayLogsOf data today),
            List.count x (gateKeys (todayLogsOf data today)) ≤
              List.count m (gateKeys (todayLogsOf data today))) := by
  unfold statsOf
  rw [if_neg h]
  refine ⟨_, rfl, ?_, ?_, specPickJs_gate (todayLogsOf data today),
    ?_, ?_, ?_, ?_⟩
  · show jsOrOpt (topCountKey (buildCounts
      (buildingKeys (todayLogsOf data today)))) "N/A" = _
    rw [topCountKey_eq_specPickJs]
  · show jsOrOpt (topCountKey (buildCounts
      (gateKeys (todayLogsOf data today)))) "N/A" = _
    rw [topCountKey_eq_specPickJs]
  · intro h0
    show jsOrOpt (topCountKey (buildCounts
      (buildingKeys (todayLogsOf data today)))) "N/A" = _
    rw [h0]
    rfl
  · intro h0
    show jsOrOpt (topCountKey (buildCounts
      (gateKeys (todayLogsOf data today)))) "N/A" = _
    rw [h0]
    rfl
  · intro hne
    obtain ⟨m, hm, hmem, hmax⟩ := specPickJs_top
      (buildingKeys (todayLogsOf data today))
      (buildingKeys_ne_empty (todayLogsOf data today)) hne
    refine ⟨m, ?_, hmem, hmax⟩
    show jsOrOpt (topCountKey (buildCounts
      (buildingKeys (todayLogsOf data today)))) "N/A" = m
    rw [topCountKey_eq_specPickJs]
    exact hm
  · intro hne
    obtain ⟨m, hm, hmem, hmax⟩ := specPickJs_top
      (gateKeys (todayLogsOf data today))
      (gateKeys_ne_empty (todayLogsOf data today)) hne
    refine ⟨m, ?_, hmem, hmax⟩
    show jsOrOpt (topCountKey (buildCounts
      (gateKeys (todayLogsOf data today)))) "N/A" = m
    rw [topCountKey_eq_specPickJs]
    exact hm

/-- C3 witness: the spec §8 statistics example — three logs, today
2024-01-01 — where "Gate 1" is both the frequent location and the highest
gate. -/
theorem claim_C3_frequent_stats_witness :
    ∃ st, statsOf [exLog1, exLog2, exLog3] [1] "2024-01-01" = some st ∧
      st.frequentBuilding = jsOrOpt (specPickJs (buildingKeys
        (todayLogsOf [exLog1, exLog2, exLog3] "2024-01-01"))) "N/A" ∧
      st.highestGate = jsOrOpt (specPickJs (gateKeys
        (todayLogsOf [exLog1, exLog2, exLog3] "2024-01-01"))) "N/A" ∧
      specPickJs (gateKeys
          (todayLogsOf [exLog1, exLog2, exLog3] "2024-01-01")) =
        specPick (gateKeys
          (todayLogsOf [exLog1, exLog2, exLog3] "2024-01-01")) ∧
      (todayLogsOf [exLog1, exLog2, exLog3] "2024-01-01" = [] →
        st.frequentBuilding = "N/A") ∧
      (gateKeys (todayLogsOf [exLog1, exLog2, exLog3] "2024-01-01") = [] →
        st.highestGate = "N/A") ∧
      (buildingKeys (todayLogsOf [exLog1, exLog2, exLog3] "2024-01-01") ≠
          [] →
        ∃ m, st.frequentBuilding = m ∧
          m ∈ buildingKeys
            (todayLogsOf [exLog1, exLog2, exLog3] "2024-01-01") ∧
          ∀ x ∈ buildingKeys
              (todayLogsOf [exLog1, exLog2, exLog3] "2024-01-01"),
            List.count x (buildingKeys
              (todayLogsOf [exLog1, exLog2, exLog3] "2024-01-01")) ≤
              List.count m (buildingKeys
                (todayLogsOf [exLog1, exLog2, exLog3] "2024-01-01"))) ∧
      (gateKeys (todayLogsOf [exLog1, exLog2, exLog3] "2024-01-01") ≠ [] →
        ∃ m, st.highestGate = m ∧
          m ∈ gateKeys (todayLogsOf [exLog1, exLog2, exLog3] "2024-01-01") ∧
          ∀ x ∈ gateKeys
              (todayLogsOf [exLog1, exLog2, exLog3] "2024-01-01"),
            List.count x (gateKeys
              (todayLogsOf [exLog1, exLog2, exLog3] "2024-01-01")) ≤
              List.count m (gateKeys
                (todayLogsOf [exLog1, exLog2, exLog3] "2024-01-01"))) :=
  claim_C3_frequent_stats [exLog1, exLog2, exLog3] [1] "2024-01-01"
    (by decide)

/-- C6: for a non-empty logs list, the today-logs are exactly the logs
whose date equals today by exact string equality; `active` counts the
today-logs whose id is in the active set; `uniqueToday` is the number of
distinct `fullName` values among the today-logs; and `uniqueWeek` and
`uniqueMonth` both equal the number of distinct `fullName` values over the
entire logs list, not a time-windowed subset. -/
theorem claim_C6_stats_counts (data : List VisitorLogDTO)
    (activeLogIds : List Nat) (today : String) (h : data ≠ []) :
    ∃ st, statsOf data activeLogIds today = some st ∧
      todayLogsOf data today =
        data.filter (fun d => decide (d.date = some today)) ∧
      st.active = ((todayLogsOf data today).filter
        fun d => decide (d.visitorLogID ∈ activeLogIds)).length ∧
      st.uniqueToday =
        ((todayLogsOf data today).map (·.fullName)).dedup.length ∧
      st.uniqueWeek = (data.map (·.fullName)).dedup.length ∧
      st.uniqueMonth = (data.map (·.fullName)).dedup.length := by
  unfold statsOf
  rw [if_neg h]
  refine ⟨_, rfl, ?_, ?_, ?_, ?_, ?_⟩
  · unfold todayLogsOf
    apply List.filter_congr
    intro d _
    by_cases hd : d.date = some today
    · simp [hd]
    · simp [hd]
  · show ((todayLogsOf data today).filter
      fun d => activeLogIds.contains d.visitorLogID).length = _
    congr 1
    apply List.filter_congr
    intro d _
    by_cases hm : d.visitorLogID ∈ activeLogIds
    · simp [hm, List.elem_iff]
    · simp [hm]
  · exact length_firstOccurs_eq_dedup _
  · exact length_firstOccurs_eq_dedup _
  · exact length_firstOccurs_eq_dedup _

/-- C6 witness: the spec §8 statistics example — `active = 1`,
`uniqueToday = 2`, `uniqueWeek = uniqueMonth = 2`. -/
theorem claim_C6_stats_counts_witness :
    ∃ st, statsOf [exLog1, exLog2, exLog3] [1] "2024-01-01" = some st ∧
      todayLogsOf [exLog1, exLog2, exLog3] "2024-01-01" =
        [exLog1, exLog2, exLog3].filter
          (fun d => decide (d.date = some "2024-01-01")) ∧
      st.active = ((todayLogsOf [exLog1, exLog2, exLog3] "2024-01-01").filter
        fun d => decide (d.visitorLogID ∈ ([1] : List Nat))).length ∧
      st.uniqueToday = ((todayLogsOf [exLog1, exLog2, exLog3]
        "2024-01-01").map (·.fullName)).dedup.length ∧
      st.uniqueWeek =
        (([exLog1, exLog2, exLog3] : List VisitorLogDTO).map
          (·.fullName)).dedup.length ∧
      st.uniqueMonth =
        (([exLog1, exLog2, exLog3] : List VisitorLogDTO).map
          (·.fullName)).dedup.length :=
  claim_C6_stats_counts [exLog1, exLog2, exLog3] [1] "2024-01-01"
    (by decide)

/-- C10 witness: the selection invariant at a concrete fetched set and
toggle sequence. -/
theorem claim_C10_selection_witness :
    (([7, 9] : List Nat).foldl handleToggleGuardSelection [5, 7]).Nodup ∧
    (∀ (l : List Nat) (g : Nat), g ∈ l →
      handleToggleGuardSelection l g = l.filter (fun id => id ≠ g)) ∧
    (∀ (l : List Nat) (g : Nat), g ∉ l →
      handleToggleGuardSelection l g = l ++ [g]) ∧
    handleSaveAssignments (some 3) [5, 9] = some (3, [5, 9]) :=
  claim_C10_selection [5, 7] [7, 9] 3 [5, 9] (by decide)

end IVisit
